import Mathlib

/-!
Verification of the PEF decontamination-efficacy dashboard (`src/app.py`).

The app loads one Excel sheet into a pandas DataFrame `df`, renames its
columns, fills missing food-pH cells with the string sentinel "NA", coerces
the energy and reduction columns to numeric, applies four row filters
(lines 34-37), derives slider bounds and dropdown option lists (lines 40-46),
and serves a single callback `update_bar_chart` (lines 93-152) that filters
`df` by the three control values and renders a scatter plot with one overall
OLS trend line fitted without a constant term.

The embedding below models a DataFrame row as a `Row` (a missing numeric
cell, pandas NaN, is `none`; numeric cells are rationals), the DataFrame as a
`List Row`, and each pandas operation as the corresponding list operation.
-/

namespace PEF

/-- One row of the in-memory table right after the load steps of
`app.py` lines 13-31: columns renamed, missing food pH replaced by the
string sentinel "NA", and the two numeric columns coerced.  A missing
numeric cell (pandas NaN) is `none`. -/
structure Row where
  energy : Option ℚ
  reduction : Option ℚ
  matrixCategory : String
  doi : String
  foodPH : String
  microorganism : String
  specificMatrix : String
  study_below_equal_300 : String
  deriving DecidableEq, Repr

/-- Filter of line 34: `df[energy].notna()` (energy being the renamed column Volumetric energy input (kJ/L)). -/
def energyNotNA (r : Row) : Bool :=
  r.energy.isSome

/-- Filter of line 35: `df[energy] <= 300`.
A NaN cell compares false in pandas, hence the `none` branch. -/
def energyLe300 (r : Row) : Bool :=
  match r.energy with
  | some e => decide (e ≤ 300)
  | none => false

/-- Filter of line 36: `df[reduction].notna()` (reduction being the renamed column Decimal microbial reduction (-)). -/
def reductionNotNA (r : Row) : Bool :=
  r.reduction.isSome

/-- Filter of line 37: `df[study_below_equal_300] == "yes"`. -/
def flagYes (r : Row) : Bool :=
  r.study_below_equal_300 == "yes"

/-- The four successive row filters of `app.py` lines 34-37, producing the
Cleaned Table from the loaded table. -/
def cleanTable (rows : List Row) : List Row :=
  (((rows.filter energyNotNA).filter energyLe300).filter reductionNotNA).filter flagYes

/-- C1: every row surviving the cleaning filters of lines 34-37 has a present
energy value that is at most 300, a present reduction value, and the literal
inclusion flag "yes"; no row violating any one of these conditions survives,
for every input table. -/
theorem cleanTable_invariant (rows : List Row) (r : Row) (hr : r ∈ cleanTable rows) :
    (∃ e, r.energy = some e ∧ e ≤ 300) ∧ r.reduction.isSome ∧ r.study_below_equal_300 = "yes" := by
  simp only [cleanTable, List.mem_filter] at hr
  obtain ⟨⟨⟨⟨-, -⟩, h2⟩, h3⟩, h4⟩ := hr
  refine ⟨?_, h3, by simpa [flagYes] using h4⟩
  cases he : r.energy with
  | none => simp [energyLe300, he] at h2
  | some e => exact ⟨e, rfl, by simpa [energyLe300, he] using h2⟩

/-- Round to the nearest integer with ties broken to even, the rounding mode
shared by both rounding sites of the program: numpy rint breaks an exact .5
tie to the even neighbour, and the Python builtin round uses the same tie
rule on the exact decimal value. -/
def roundHalfEvenInt (q : ℚ) : ℤ :=
  if q - ⌊q⌋ < 1/2 then ⌊q⌋
  else if 1/2 < q - ⌊q⌋ then ⌊q⌋ + 1
  else if 2 ∣ ⌊q⌋ then ⌊q⌋ else ⌊q⌋ + 1

/-- Rounding of an exact rational value to the nearest IEEE-754 double,
ties to even significand: the significand is the integer nearest to
q / 2 ^ e for e = Int.log 2 |q| - 52, so that it has 53 bits.  Subnormal
and overflow behavior is not modelled; every value in this development is
far inside the normal range.  This is the rounding a double multiplication
performs on its exact product. -/
def fl (q : ℚ) : ℚ :=
  if q = 0 then 0
  else (roundHalfEvenInt (q / 2 ^ (Int.log 2 |q| - 52)) : ℚ) * 2 ^ (Int.log 2 |q| - 52)

/-- Lines 103-104: the Python builtin `round(x, 1)` on a double: the exact
value of the argument is rounded to the nearest tenth (ties to even; a tie is
impossible for a double argument, since an odd multiple of 1/20 is not
dyadic).  The final conversion of the resulting decimal back to a double is
strictly monotone on the tenths appearing here, so it cannot change any
comparison between two rounded values and is dropped. -/
def builtinRound1 (q : ℚ) : ℚ :=
  (roundHalfEvenInt (10 * q) : ℚ) / 10

/-- Line 101: pandas `Series.round(1)`, which delegates to numpy `around`:
multiply by 10.0 in double arithmetic — this is `fl (10 * q)`, and the
double rounding of the product is what creates exact ties: for the double
nearest 1.05 the product is exactly 10.5 — then round to the nearest integer
with ties to even (rint), then divide by 10.0.  The final double division by
10 is strictly monotone on the results, so it cannot change any comparison
between two rounded values and is dropped, as in `builtinRound1`. -/
def pandasRound1 (q : ℚ) : ℚ :=
  (roundHalfEvenInt (fl (10 * q)) : ℚ) / 10

/-- The IEEE-754 double nearest to the decimal 1.04
(1.04000000000000003552713678800500929…). -/
def d104 : ℚ := 4683743612465316 / 2 ^ 52

/-- The IEEE-754 double nearest to the decimal 1.05
(1.05000000000000004440892098500626169…, slightly above the exact
decimal 21/20). -/
def d105 : ℚ := 4728779608739021 / 2 ^ 52

/-- Half-even rounding of an integer is that integer. -/
theorem roundHalfEvenInt_intCast (n : ℤ) : roundHalfEvenInt (n : ℚ) = n := by
  unfold roundHalfEvenInt
  rw [Int.floor_intCast]
  norm_num

/-- Half-even rounding of a value in [n, n + 1/2) is n. -/
theorem roundHalfEvenInt_eq_of_lt_half (n : ℤ) {q : ℚ} (h1 : (n:ℚ) ≤ q)
    (h2 : q < (n:ℚ) + 1/2) : roundHalfEvenInt q = n := by
  have hf : ⌊q⌋ = n := Int.floor_eq_iff.mpr ⟨h1, by linarith⟩
  unfold roundHalfEvenInt
  rw [hf, if_pos (by linarith)]

/-- Half-even rounding of a value in (n + 1/2, n + 1) is n + 1. -/
theorem roundHalfEvenInt_eq_of_half_lt (n : ℤ) {q : ℚ} (h1 : (n:ℚ) + 1/2 < q)
    (h2 : q < (n:ℚ) + 1) : roundHalfEvenInt q = n + 1 := by
  have hf : ⌊q⌋ = n := Int.floor_eq_iff.mpr ⟨by linarith, by linarith⟩
  unfold roundHalfEvenInt
  rw [hf, if_neg (by linarith), if_pos (by linarith)]

/-- Half-even rounding of an exact tie n + 1/2 with n even is n. -/
theorem roundHalfEvenInt_tie_even (n : ℤ) {q : ℚ} (h : q = (n:ℚ) + 1/2) (he : 2 ∣ n) :
    roundHalfEvenInt q = n := by
  have hf : ⌊q⌋ = n := Int.floor_eq_iff.mpr ⟨by rw [h]; linarith, by rw [h]; linarith⟩
  unfold roundHalfEvenInt
  rw [hf, if_neg (by rw [h]; linarith), if_neg (by rw [h]; linarith), if_pos he]

/-- Half-even rounding is at least the floor. -/
theorem floor_le_roundHalfEvenInt (q : ℚ) : ⌊q⌋ ≤ roundHalfEvenInt q := by
  unfold roundHalfEvenInt
  split_ifs <;> omega

/-- Half-even rounding is at most the floor plus one. -/
theorem roundHalfEvenInt_le_floor_add_one (q : ℚ) : roundHalfEvenInt q ≤ ⌊q⌋ + 1 := by
  unfold roundHalfEvenInt
  split_ifs <;> omega

/-- Half-even rounding moves a value up by at most one half. -/
theorem roundHalfEvenInt_cast_le (q : ℚ) : (roundHalfEvenInt q : ℚ) ≤ q + 1/2 := by
  have h1 := Int.floor_le q
  unfold roundHalfEvenInt
  split_ifs <;> push_cast <;> linarith

/-- Half-even rounding moves a value down by at most one half. -/
theorem le_roundHalfEvenInt_cast (q : ℚ) : q - 1/2 ≤ (roundHalfEvenInt q : ℚ) := by
  have h1 := Int.floor_le q
  have h2 := Int.lt_floor_add_one q
  unfold roundHalfEvenInt
  split_ifs <;> push_cast <;> linarith

/-- Half-even rounding is monotone. -/
theorem roundHalfEvenInt_mono {a b : ℚ} (h : a ≤ b) :
    roundHalfEvenInt a ≤ roundHalfEvenInt b := by
  rcases lt_or_eq_of_le (Int.floor_le_floor h) with hf | hf
  · calc roundHalfEvenInt a ≤ ⌊a⌋ + 1 := roundHalfEvenInt_le_floor_add_one a
      _ ≤ ⌊b⌋ := by omega
      _ ≤ roundHalfEvenInt b := floor_le_roundHalfEvenInt b
  · have hab : a - (⌊a⌋ : ℚ) ≤ b - (⌊a⌋ : ℚ) := by linarith
    unfold roundHalfEvenInt
    rw [← hf]
    split_ifs <;> first | omega | (exfalso; linarith)

/-- Unfolding of `fl` once the binary exponent of the argument is known. -/
theorem fl_eval (e : ℤ) {q : ℚ} (hq : q ≠ 0) (hlog : Int.log 2 |q| = e + 52) :
    fl q = (roundHalfEvenInt (q / 2 ^ e) : ℚ) * 2 ^ e := by
  rw [fl, if_neg hq, hlog, add_sub_cancel_right]

/-- Characterization of the base-2 integer logarithm by bracketing powers. -/
theorem log2_eq_of (z : ℤ) {r : ℚ} (h0 : 0 < r) (h1 : (2:ℚ) ^ z ≤ r)
    (h2 : r < (2:ℚ) ^ (z + 1)) : Int.log 2 r = z := by
  have ha : z ≤ Int.log 2 r := by
    refine (Int.zpow_le_iff_le_log (by norm_num) h0).mp ?_
    exact_mod_cast h1
  have hb : Int.log 2 r < z + 1 := by
    refine (Int.lt_zpow_iff_log_lt (by norm_num) h0).mp ?_
    exact_mod_cast h2
  omega

/-- An integer with at most 53 bits is an exact double. -/
theorem fl_intCast {k : ℤ} (h1 : 1 ≤ k) (h2 : k < 2 ^ 53) : fl (k : ℚ) = k := by
  have hk0 : (0:ℚ) < (k:ℚ) := by exact_mod_cast h1
  have hne : (k:ℚ) ≠ 0 := ne_of_gt hk0
  have hL0 : (0:ℤ) ≤ Int.log 2 (k:ℚ) := by
    refine (Int.zpow_le_iff_le_log (by norm_num) hk0).mp ?_
    rw [zpow_zero]
    exact_mod_cast h1
  have hL52 : Int.log 2 (k:ℚ) ≤ 52 := by
    have hb5 : Int.log 2 (k:ℚ) < 53 := by
      refine (Int.lt_zpow_iff_log_lt (by norm_num) hk0).mp ?_
      push_cast
      exact_mod_cast h2
    omega
  obtain ⟨m, hm⟩ : ∃ m : ℕ, 52 - Int.log 2 (k:ℚ) = (m:ℤ) :=
    ⟨(52 - Int.log 2 (k:ℚ)).toNat, (Int.toNat_of_nonneg (by omega)).symm⟩
  have hdiv : (k:ℚ) / 2 ^ (Int.log 2 (k:ℚ) - 52) = ((k * 2 ^ m : ℤ) : ℚ) := by
    rw [show Int.log 2 (k:ℚ) - 52 = -(m:ℤ) by omega, zpow_neg, div_inv_eq_mul]
    push_cast
    norm_num [zpow_natCast]
  rw [fl_eval (Int.log 2 (k:ℚ) - 52) hne (by rw [abs_of_pos hk0]; omega),
    hdiv, roundHalfEvenInt_intCast]
  push_cast
  rw [show Int.log 2 (k:ℚ) - 52 = -(m:ℤ) by omega, zpow_neg, zpow_natCast]
  field_simp

/-- Double rounding preserves nonnegativity. -/
theorem fl_nonneg {q : ℚ} (h : 0 ≤ q) : 0 ≤ fl q := by
  rcases eq_or_lt_of_le h with rfl | h0
  · simp [fl]
  · rw [fl, if_neg (ne_of_gt h0)]
    have hpos : (0:ℚ) ≤ q / 2 ^ (Int.log 2 |q| - 52) := by positivity
    have hfl : (0:ℤ) ≤ roundHalfEvenInt (q / 2 ^ (Int.log 2 |q| - 52)) := by
      have := floor_le_roundHalfEvenInt (q / 2 ^ (Int.log 2 |q| - 52))
      have := Int.floor_nonneg.mpr hpos
      omega
    have : (0:ℚ) ≤ (roundHalfEvenInt (q / 2 ^ (Int.log 2 |q| - 52)) : ℚ) := by
      exact_mod_cast hfl
    positivity

/-- A double rounding stays below the next power of two. -/
theorem fl_le_zpow_succ_log {q : ℚ} (h0 : 0 < q) :
    fl q ≤ (2:ℚ) ^ (Int.log 2 q + 1) := by
  have hlog : Int.log 2 |q| = (Int.log 2 q - 52) + 52 := by
    rw [abs_of_pos h0]; omega
  rw [fl_eval (Int.log 2 q - 52) (ne_of_gt h0) hlog]
  have hq2 : q < ((2:ℕ):ℚ) ^ (Int.log 2 q + 1) := Int.lt_zpow_succ_log_self (by norm_num) q
  have hzpos : (0:ℚ) < (2:ℚ) ^ (Int.log 2 q - 52) := by positivity
  have hx : q / 2 ^ (Int.log 2 q - 52) < 2 ^ (53:ℤ) := by
    rw [div_lt_iff₀ hzpos, ← zpow_add₀ (by norm_num : (2:ℚ) ≠ 0)]
    calc q < ((2:ℕ):ℚ) ^ (Int.log 2 q + 1) := hq2
      _ = (2:ℚ) ^ (53 + (Int.log 2 q - 52)) := by
          rw [show (53 + (Int.log 2 q - 52)) = Int.log 2 q + 1 by omega]
          norm_num
  have h2c : (2:ℚ) ^ (53:ℤ) = ((9007199254740992 : ℤ) : ℚ) := by norm_num
  have hrle : (roundHalfEvenInt (q / 2 ^ (Int.log 2 q - 52)) : ℚ) ≤ 2 ^ (53:ℤ) := by
    have hb := roundHalfEvenInt_cast_le (q / 2 ^ (Int.log 2 q - 52))
    have hXQ : (roundHalfEvenInt (q / 2 ^ (Int.log 2 q - 52)) : ℚ)
        < ((9007199254740992 : ℤ) : ℚ) + 1 := by
      rw [← h2c]; linarith
    have hXint : roundHalfEvenInt (q / 2 ^ (Int.log 2 q - 52)) < 9007199254740992 + 1 := by
      exact_mod_cast hXQ
    rw [h2c]
    exact_mod_cast by omega
  calc (roundHalfEvenInt (q / 2 ^ (Int.log 2 q - 52)) : ℚ) * 2 ^ (Int.log 2 q - 52)
      ≤ 2 ^ (53:ℤ) * 2 ^ (Int.log 2 q - 52) :=
        mul_le_mul_of_nonneg_right hrle (le_of_lt hzpos)
    _ = 2 ^ (Int.log 2 q + 1) := by
        rw [← zpow_add₀ (by norm_num : (2:ℚ) ≠ 0)]
        congr 1
        omega

/-- A double rounding stays above the power of two below the argument. -/
theorem zpow_log_le_fl {q : ℚ} (h0 : 0 < q) :
    (2:ℚ) ^ Int.log 2 q ≤ fl q := by
  have hlog : Int.log 2 |q| = (Int.log 2 q - 52) + 52 := by
    rw [abs_of_pos h0]; omega
  rw [fl_eval (Int.log 2 q - 52) (ne_of_gt h0) hlog]
  have hq1 : ((2:ℕ):ℚ) ^ Int.log 2 q ≤ q := Int.zpow_log_le_self (by norm_num) h0
  have hzpos : (0:ℚ) < (2:ℚ) ^ (Int.log 2 q - 52) := by positivity
  have hx : (2:ℚ) ^ (52:ℤ) ≤ q / 2 ^ (Int.log 2 q - 52) := by
    rw [le_div_iff₀ hzpos, ← zpow_add₀ (by norm_num : (2:ℚ) ≠ 0)]
    calc (2:ℚ) ^ (52 + (Int.log 2 q - 52)) = ((2:ℕ):ℚ) ^ Int.log 2 q := by
          rw [show (52 + (Int.log 2 q - 52)) = Int.log 2 q by omega]
          norm_num
      _ ≤ q := hq1
  have h2c : (2:ℚ) ^ (52:ℤ) = ((4503599627370496 : ℤ) : ℚ) := by norm_num
  have hrge : (2:ℚ) ^ (52:ℤ) ≤ (roundHalfEvenInt (q / 2 ^ (Int.log 2 q - 52)) : ℚ) := by
    have hb := le_roundHalfEvenInt_cast (q / 2 ^ (Int.log 2 q - 52))
    have hXQ : ((4503599627370496 : ℤ) : ℚ) - 1
        < (roundHalfEvenInt (q / 2 ^ (Int.log 2 q - 52)) : ℚ) := by
      rw [← h2c]; linarith
    have hXint : 4503599627370496 - 1 < roundHalfEvenInt (q / 2 ^ (Int.log 2 q - 52)) := by
      exact_mod_cast hXQ
    rw [h2c]
    exact_mod_cast by omega
  calc (2:ℚ) ^ Int.log 2 q = 2 ^ (52:ℤ) * 2 ^ (Int.log 2 q - 52) := by
        rw [← zpow_add₀ (by norm_num : (2:ℚ) ≠ 0)]
        congr 1
        omega
    _ ≤ (roundHalfEvenInt (q / 2 ^ (Int.log 2 q - 52)) : ℚ) * 2 ^ (Int.log 2 q - 52) :=
        mul_le_mul_of_nonneg_right hrge (le_of_lt hzpos)

/-- Double rounding is monotone on nonnegative values. -/
theorem fl_mono_nonneg {a b : ℚ} (ha : 0 ≤ a) (h : a ≤ b) : fl a ≤ fl b := by
  rcases eq_or_lt_of_le ha with heq | ha0
  · rw [← heq, fl, if_pos rfl]
    exact fl_nonneg (by linarith)
  · have hb0 : 0 < b := lt_of_lt_of_le ha0 h
    have hmono : Int.log 2 a ≤ Int.log 2 b := Int.log_mono_right ha0 h
    rcases lt_or_eq_of_le hmono with hL | hL
    · calc fl a ≤ (2:ℚ) ^ (Int.log 2 a + 1) := fl_le_zpow_succ_log ha0
        _ ≤ (2:ℚ) ^ Int.log 2 b := zpow_le_zpow_right₀ (by norm_num) (by omega)
        _ ≤ fl b := zpow_log_le_fl hb0
    · have hloga : Int.log 2 |a| = (Int.log 2 a - 52) + 52 := by
        rw [abs_of_pos ha0]; omega
      have hlogb : Int.log 2 |b| = (Int.log 2 a - 52) + 52 := by
        rw [abs_of_pos hb0, ← hL]; omega
      rw [fl_eval (Int.log 2 a - 52) (ne_of_gt ha0) hloga,
        fl_eval (Int.log 2 a - 52) (ne_of_gt hb0) hlogb]
      have hzpos : (0:ℚ) < (2:ℚ) ^ (Int.log 2 a - 52) := by positivity
      have hdiv : a / 2 ^ (Int.log 2 a - 52) ≤ b / 2 ^ (Int.log 2 a - 52) :=
        (div_le_div_iff_of_pos_right hzpos).mpr h
      exact mul_le_mul_of_nonneg_right
        (Int.cast_le.mpr (roundHalfEvenInt_mono hdiv)) (le_of_lt hzpos)

/-- The builtin rounding at a value whose tenfold is an integer. -/
theorem builtinRound1_eval_int (k : ℤ) {q : ℚ} (h : 10 * q = (k:ℚ)) :
    builtinRound1 q = (k:ℚ) / 10 := by
  rw [builtinRound1, h, roundHalfEvenInt_intCast]

/-- The pandas rounding at a value whose tenfold is an exactly representable
integer. -/
theorem pandasRound1_eval_int (k : ℤ) {q : ℚ} (h : 10 * q = (k:ℚ)) (h1 : 1 ≤ k)
    (h2 : k < 2 ^ 53) : pandasRound1 q = (k:ℚ) / 10 := by
  rw [pandasRound1, h, fl_intCast h1 h2, roundHalfEvenInt_intCast]

/-- The pandas rounding is monotone on nonnegative values. -/
theorem pandasRound1_mono_nonneg {a b : ℚ} (ha : 0 ≤ a) (h : a ≤ b) :
    pandasRound1 a ≤ pandasRound1 b := by
  unfold pandasRound1
  have h1 : fl (10 * a) ≤ fl (10 * b) := fl_mono_nonneg (by linarith) (by linarith)
  have h2 : (roundHalfEvenInt (fl (10 * a)) : ℚ) ≤ (roundHalfEvenInt (fl (10 * b)) : ℚ) :=
    Int.cast_le.mpr (roundHalfEvenInt_mono h1)
  linarith

/-- Concrete value: pandas rounding fixes 1. -/
theorem pandasRound1_one : pandasRound1 1 = 1 := by
  rw [pandasRound1_eval_int 10 (by norm_num) (by norm_num) (by norm_num)]
  norm_num

/-- Concrete value: pandas rounding fixes 2. -/
theorem pandasRound1_two : pandasRound1 2 = 2 := by
  rw [pandasRound1_eval_int 20 (by norm_num) (by norm_num) (by norm_num)]
  norm_num

/-- Concrete value: pandas rounding fixes 10. -/
theorem pandasRound1_ten : pandasRound1 10 = 10 := by
  rw [pandasRound1_eval_int 100 (by norm_num) (by norm_num) (by norm_num)]
  norm_num

/-- Concrete value: pandas rounding fixes 200. -/
theorem pandasRound1_twoHundred : pandasRound1 200 = 200 := by
  rw [pandasRound1_eval_int 2000 (by norm_num) (by norm_num) (by norm_num)]
  norm_num

/-- Concrete value: builtin rounding fixes 0. -/
theorem builtinRound1_zero : builtinRound1 0 = 0 := by
  rw [builtinRound1_eval_int 0 (by norm_num)]
  norm_num

/-- Concrete value: builtin rounding fixes 1. -/
theorem builtinRound1_one : builtinRound1 1 = 1 := by
  rw [builtinRound1_eval_int 10 (by norm_num)]
  norm_num

/-- Concrete value: builtin rounding fixes 10. -/
theorem builtinRound1_ten : builtinRound1 10 = 10 := by
  rw [builtinRound1_eval_int 100 (by norm_num)]
  norm_num

/-- Concrete value: builtin rounding fixes 200. -/
theorem builtinRound1_twoHundred : builtinRound1 200 = 200 := by
  rw [builtinRound1_eval_int 2000 (by norm_num)]
  norm_num

/-- Concrete value: builtin rounding fixes 300. -/
theorem builtinRound1_threeHundred : builtinRound1 300 = 300 := by
  rw [builtinRound1_eval_int 3000 (by norm_num)]
  norm_num

/-- The double product 10.0 times the double nearest 1.05 is exactly 10.5:
the exact product 10.500000000000000444… is within half an ulp of 10.5. -/
theorem fl_ten_d105 : fl (10 * d105) = 21 / 2 := by
  have hlog : Int.log 2 |10 * d105| = (-49) + 52 := by
    rw [abs_of_pos (by norm_num [d105]),
      log2_eq_of 3 (by norm_num [d105]) (by norm_num [d105]) (by norm_num [d105])]
    norm_num
  rw [fl_eval (-49) (by norm_num [d105]) hlog]
  have hdiv : 10 * d105 / 2 ^ (-49 : ℤ) = ((5910974510923776 : ℤ) : ℚ) + 1/4 := by
    rw [zpow_neg, div_inv_eq_mul]
    norm_num [d105]
  rw [hdiv, roundHalfEvenInt_eq_of_lt_half 5910974510923776 (by norm_num) (by norm_num)]
  rw [zpow_neg]
  norm_num

/-- Line 101 sends the double nearest 1.05 to 1.0: the scaled product is the
exact tie 10.5 and rint breaks it to the even integer 10. -/
theorem pandasRound1_of_d105 : pandasRound1 d105 = 1 := by
  rw [pandasRound1, fl_ten_d105,
    roundHalfEvenInt_tie_even 10 (by norm_num) (by norm_num)]
  norm_num

/-- Lines 103-104 send the double nearest 1.05 to 1.1: its exact value is
above the midpoint 1.05, so the nearest tenth is 1.1. -/
theorem builtinRound1_of_d105 : builtinRound1 d105 = 11 / 10 := by
  rw [builtinRound1,
    roundHalfEvenInt_eq_of_half_lt 10 (by norm_num [d105]) (by norm_num [d105])]
  norm_num

/-- The double product 10.0 times the double nearest 1.04 is exact. -/
theorem fl_ten_d104 : fl (10 * d104) = ((5854679515581645 : ℤ) : ℚ) * 2 ^ (-49 : ℤ) := by
  have hlog : Int.log 2 |10 * d104| = (-49) + 52 := by
    rw [abs_of_pos (by norm_num [d104]),
      log2_eq_of 3 (by norm_num [d104]) (by norm_num [d104]) (by norm_num [d104])]
    norm_num
  rw [fl_eval (-49) (by norm_num [d104]) hlog]
  have hdiv : 10 * d104 / 2 ^ (-49 : ℤ) = ((5854679515581645 : ℤ) : ℚ) := by
    rw [zpow_neg, div_inv_eq_mul]
    norm_num [d104]
  rw [hdiv, roundHalfEvenInt_intCast]

/-- Line 101 sends the double nearest 1.04 to 1.0. -/
theorem pandasRound1_of_d104 : pandasRound1 d104 = 1 := by
  rw [pandasRound1, fl_ten_d104,
    roundHalfEvenInt_eq_of_lt_half 10 (by rw [zpow_neg]; norm_num) (by rw [zpow_neg]; norm_num)]
  norm_num

/-- A dropdown value as delivered to the callback: either a bare scalar (a
single selection) or a list (multi-selection).  Mirrors the
`isinstance(x, list)` test on lines 111 and 115. -/
inductive Selection where
  | scalar (s : String)
  | multi (l : List String)
  deriving DecidableEq, Repr

/-- Normalization of a dropdown value to a list, as on lines 111-112 and
115-116: `x if isinstance(x, list) else [x]`. -/
def normalizeSelection : Selection → List String
  | .scalar s => [s]
  | .multi l => l

/-- Energy part of the mask (lines 101-109): the energy value of the row,
rounded to one decimal by pandas on line 101 (`pandasRound1`), lies between
the two range endpoints rounded to one decimal by the Python builtin on
lines 103-104 (`builtinRound1`), both ends inclusive (`Series.between`
defaults to inclusive="both").  The two sites round differently and their
divergence at the double nearest 1.05 is observable in the filter.  A NaN
energy cell rounds to NaN and `between` is false on it. -/
def energyBetween (lo hi : ℚ) (r : Row) : Bool :=
  match r.energy with
  | some e =>
      decide (builtinRound1 lo ≤ pandasRound1 e) && decide (pandasRound1 e ≤ builtinRound1 hi)
  | none => false

/-- The combined boolean mask of lines 107-118: energy between the rounded
range, matrix category in the normalized category selection, microorganism
in the normalized organism selection. -/
def rowMask (lo hi : ℚ) (cats orgs : Selection) (r : Row) : Bool :=
  energyBetween lo hi r
    && (normalizeSelection cats).contains r.matrixCategory
    && (normalizeSelection orgs).contains r.microorganism

/-- Line 120: `filtered_df = df[mask]`. -/
def filtered_df (lo hi : ℚ) (cats orgs : Selection) (df : List Row) : List Row :=
  df.filter (rowMask lo hi cats orgs)

/-- The (x, y) columns handed to the trend-line fit: x is the energy, y the
reduction (lines 132-133).  On the cleaned table both cells are always
present; `getD 0` merely totalizes the projection. -/
def xyPairs (rows : List Row) : List (ℚ × ℚ) :=
  rows.map fun r => (r.energy.getD 0, r.reduction.getD 0)

/-- Sum of squared x values of a point list. -/
def sxx (l : List (ℚ × ℚ)) : ℚ :=
  (l.map fun p => p.1 * p.1).sum

/-- Sum of x·y products of a point list. -/
def sxy (l : List (ℚ × ℚ)) : ℚ :=
  (l.map fun p => p.1 * p.2).sum

/-- Sum of squared y values of a point list. -/
def syy (l : List (ℚ × ℚ)) : ℚ :=
  (l.map fun p => p.2 * p.2).sum

/-- Slope of the ordinary-least-squares fit of y on x with no constant term,
as configured on lines 140-143: `trendline="ols"`, `trendline_scope="overall"`,
`trendline_options=\x7b"add_constant": False\x7d`.  Without a constant the fitted
line is y = m·x with m = Σxy / Σx². -/
def olsSlope (l : List (ℚ × ℚ)) : ℚ :=
  sxy l / sxx l

/-- Sum of squared residuals of the affine line y = m·x + b on a point
list; the quantity ordinary least squares minimizes. -/
def sseLine (l : List (ℚ × ℚ)) (m b : ℚ) : ℚ :=
  (l.map fun p => (p.2 - (m * p.1 + b)) ^ 2).sum

/-- The figure returned by the callback, reduced to the verified content:
the filtered point rows (each row carries all the hover metadata of lines
136-137) and the single overall trend-line slope, absent when the filtered
set is empty (no trend line is drawn over zero points). -/
structure ChartArtifact where
  points : List Row
  trendSlope : Option ℚ
  deriving DecidableEq, Repr

/-- The callback `update_bar_chart` of lines 93-152: build the mask from the
three control values, filter the table, and return the figure built from the
filtered rows with one overall no-constant OLS trend line. -/
def update_bar_chart (energyRange : ℚ × ℚ) (cats orgs : Selection) (df : List Row) :
    ChartArtifact :=
  let f := filtered_df energyRange.1 energyRange.2 cats orgs df
  { points := f
    trendSlope := if f.isEmpty then none else some (olsSlope (xyPairs f)) }

/-- State-passing form of the callback: the module-level table `df` is
threaded explicitly and returned alongside the figure.  Every statement of
the callback body (lines 100-152) only reads `df` and binds fresh locals
(`rounded_area_values`, `mask`, `filtered_df`, `fig`); none assigns to `df`
or to any of its columns, so the returned table is the input table. -/
def update_bar_chart_st (energyRange : ℚ × ℚ) (cats orgs : Selection) (df : List Row) :
    ChartArtifact × List Row :=
  (update_bar_chart energyRange cats orgs df, df)

/-- First-encountered-order deduplication, modelling
`pandas.Series.unique` as used on lines 40-41. -/
def uniqueVals (l : List String) : List String :=
  l.foldl (fun acc x => if acc.contains x then acc else acc ++ [x]) []

/-- Line 41: the distinct matrix categories of the cleaned table, in
first-encountered order. -/
def matrix_category_values (df : List Row) : List String :=
  uniqueVals (df.map fun r => r.matrixCategory)

/-- Line 40: the distinct microorganisms of the cleaned table, in
first-encountered order. -/
def organism_grouped_values (df : List Row) : List String :=
  uniqueVals (df.map fun r => r.microorganism)

/-- The energy column with NaN cells skipped, as pandas `Series.min` and
`Series.max` skip them. -/
def colEnergies (df : List Row) : List ℚ :=
  df.filterMap fun r => r.energy

/-- Line 45: `round(df[energy].min(), 1)`.  The column minimum is a numpy
float64 scalar, whose rounding protocol delegates to numpy around, the same
scaled rounding as line 101 (`pandasRound1`).  The minimum of an empty
column is NaN (`none`), and rounding NaN yields NaN again. -/
def min_est_energy_input_2_J_ml_rounded (df : List Row) : Option ℚ :=
  (colEnergies df).min?.map pandasRound1

/-- Line 46: `round(df[energy].max(), 1)`, as in the minimum case. -/
def max_est_energy_input_2_J_ml_rounded (df : List Row) : Option ℚ :=
  (colEnergies df).max?.map pandasRound1

/-- The (min, max) bound pair handed to the RangeSlider on lines 56-61.
A `none` component models a NaN bound reaching the UI control. -/
def rangeSliderBounds (df : List Row) : Option ℚ × Option ℚ :=
  (min_est_energy_input_2_J_ml_rounded df, max_est_energy_input_2_J_ml_rounded df)

/-- Startup as far as the slider bounds are concerned: load and clean the
table (lines 13-37), then compute the slider bounds (lines 45-46).  This
path has no error branch and no emptiness check — in particular no
EmptyDatasetError exists anywhere in the program — so the embedding is a
total function; NaN bounds flow into the RangeSlider construction. -/
def startupSliderConfig (raw : List Row) : Option ℚ × Option ℚ :=
  rangeSliderBounds (cleanTable raw)

/-- The parts of the layout of lines 49-80 with verified content: the slider
bound pair and the two dropdown default values. -/
structure Layout where
  sliderBounds : Option ℚ × Option ℚ
  defaultCategory : String
  defaultOrganism : String
  deriving DecidableEq, Repr

/-- The layout construction of lines 49-80.  The RangeSlider of lines 56-61
is built first and accepts whatever bounds it is given, NaN included; then
line 68 takes `matrix_category_values[0]` and line 77 takes
`organism_grouped_values[0]` as dropdown defaults.  Indexing position 0 of
an empty options array raises an uncaught IndexError, which aborts startup;
that abnormal outcome is modelled as `none`. -/
def app_layout (df : List Row) : Option Layout :=
  match (matrix_category_values df).head?, (organism_grouped_values df).head? with
  | some c0, some o0 => some ⟨rangeSliderBounds df, c0, o0⟩
  | _, _ => none

/-- Startup through the layout construction: clean the table, then build the
layout.  An empty cleaned table makes line 68 raise IndexError (`none`),
after the NaN slider bounds were already computed without complaint. -/
def startupLayout (raw : List Row) : Option Layout :=
  app_layout (cleanTable raw)

/-- A concrete good row used in witnesses: present energy 10, present
reduction 2, flag "yes". -/
def rowGood : Row :=
  ⟨some 10, some 2, "juice", "doi-a", "NA", "E. coli", "apple juice", "yes"⟩

/-- A concrete row with missing energy. -/
def rowNoEnergy : Row :=
  ⟨none, some 1, "juice", "doi-b", "NA", "E. coli", "apple juice", "yes"⟩

/-- A concrete row with energy above 300. -/
def rowBigEnergy : Row :=
  ⟨some 301, some 1, "juice", "doi-c", "NA", "E. coli", "apple juice", "yes"⟩

/-- A concrete row with missing reduction. -/
def rowNoReduction : Row :=
  ⟨some 20, none, "juice", "doi-d", "NA", "E. coli", "apple juice", "yes"⟩

/-- A concrete row with inclusion flag "no". -/
def rowFlagNo : Row :=
  ⟨some 30, some 2, "juice", "doi-e", "NA", "E. coli", "apple juice", "no"⟩

/-- Witness for C1 at a concrete table holding one good row and one row
violating each cleaning condition. -/
theorem cleanTable_invariant_witness :
    (∃ e, rowGood.energy = some e ∧ e ≤ 300) ∧ rowGood.reduction.isSome ∧
      rowGood.study_below_equal_300 = "yes" :=
  cleanTable_invariant [rowNoEnergy, rowBigEnergy, rowGood, rowNoReduction, rowFlagNo] rowGood
    (by norm_num [cleanTable, energyNotNA, energyLe300, reductionNotNA, flagYes, rowGood,
      rowNoEnergy, rowBigEnergy, rowNoReduction, rowFlagNo, List.filter_cons])

/-- Membership in the filtered table unfolded into the three conjuncts of
the mask, for a row whose energy cell is present.  Shared helper for the
filter theorems below. -/
theorem mem_filtered_df (lo hi : ℚ) (cats orgs : Selection) (df : List Row) (r : Row) (e : ℚ)
    (he : r.energy = some e) :
    r ∈ filtered_df lo hi cats orgs df ↔
      r ∈ df ∧ (builtinRound1 lo ≤ pandasRound1 e ∧ pandasRound1 e ≤ builtinRound1 hi) ∧
        r.matrixCategory ∈ normalizeSelection cats ∧
        r.microorganism ∈ normalizeSelection orgs := by
  simp [filtered_df, List.mem_filter, rowMask, energyBetween, he, and_assoc]

/-- C2 (amended): for every control state and every row of the table whose
energy is present, the callback keeps the row in the filtered set exactly
when its pandas-rounded energy (line 101: scale by 10.0 in double
arithmetic, rint half-to-even, divide) lies in the closed interval between
the builtin-rounded endpoints (lines 103-104: nearest tenth of the exact
double value), its matrix category is among the normalized selected
categories, and its microorganism is among the normalized selected
organisms; a bare scalar selection acts as the corresponding singleton.
The two rounding sites differ, so a single uniform rounding does not
describe the mask. -/
theorem update_filter_membership (lo hi : ℚ) (cats orgs : Selection) (df : List Row)
    (r : Row) (e : ℚ) (he : r.energy = some e) :
    r ∈ filtered_df lo hi cats orgs df ↔
      r ∈ df ∧ (builtinRound1 lo ≤ pandasRound1 e ∧ pandasRound1 e ≤ builtinRound1 hi) ∧
        r.matrixCategory ∈ normalizeSelection cats ∧
        r.microorganism ∈ normalizeSelection orgs :=
  mem_filtered_df lo hi cats orgs df r e he

/-- Witness for the amended C2 at a concrete row, table and control state. -/
theorem update_filter_membership_witness :
    rowGood ∈ filtered_df 0 300 (.scalar "juice") (.multi ["E. coli"]) [rowGood] ↔
      rowGood ∈ [rowGood] ∧
        (builtinRound1 0 ≤ pandasRound1 10 ∧ pandasRound1 10 ≤ builtinRound1 300) ∧
        rowGood.matrixCategory ∈ normalizeSelection (.scalar "juice") ∧
        rowGood.microorganism ∈ normalizeSelection (.multi ["E. coli"]) :=
  update_filter_membership 0 300 (.scalar "juice") (.multi ["E. coli"]) [rowGood] rowGood 10 rfl

/-- A concrete row whose raw energy is the double nearest 1.05, with
category "c" and organism "o". -/
def rowE105 : Row :=
  ⟨some d105, some 1, "c", "doi-j", "NA", "o", "m", "yes"⟩

/-- C2 as frozen fails on the code: a row whose raw energy equals both range
endpoints (the double nearest 1.05), with its category and organism both
selected, is nevertheless excluded from the filtered set — under any single
rounding function the claimed biconditional would include it, since the
rounded energy then trivially equals both rounded bounds, but line 101
rounds the row value to 1.0 while lines 103-104 round the endpoints
to 1.1. -/
theorem update_filter_membership_counterexample :
    rowE105.energy = some d105 ∧ rowE105 ∈ [rowE105] ∧
      rowE105.matrixCategory ∈ normalizeSelection (.multi ["c"]) ∧
      rowE105.microorganism ∈ normalizeSelection (.multi ["o"]) ∧
      rowE105 ∉ filtered_df d105 d105 (.multi ["c"]) (.multi ["o"]) [rowE105] := by
  refine ⟨rfl, by simp, by simp [rowE105, normalizeSelection],
    by simp [rowE105, normalizeSelection], ?_⟩
  rw [mem_filtered_df d105 d105 (.multi ["c"]) (.multi ["o"]) [rowE105] rowE105 d105 rfl]
  rintro ⟨-, ⟨habs, -⟩, -, -⟩
  rw [builtinRound1_of_d105, pandasRound1_of_d105] at habs
  norm_num at habs

/-- C3 as frozen fails on the code: with the range [1.0, 1.0], a row whose
raw energy is the double nearest 1.05 IS included in the filtered set —
line 101 scales it to the exact double 10.5 and rint breaks the tie to the
even integer 10, so the row value rounds to 1.0, inside [1.0, 1.0]; the
claimed exclusion would require the builtin rounding (1.05 to 1.1), which
the program applies only to the slider endpoints, not to row values. -/
theorem boundary_rounding_counterexample :
    rowE105 ∈ filtered_df 1 1 (.multi ["c"]) (.multi ["o"]) [rowE105] := by
  rw [mem_filtered_df 1 1 (.multi ["c"]) (.multi ["o"]) [rowE105] rowE105 d105 rfl]
  refine ⟨by simp, ⟨?_, ?_⟩, by simp [rowE105, normalizeSelection],
    by simp [rowE105, normalizeSelection]⟩ <;>
    simp [builtinRound1_one, pandasRound1_of_d105]

/-- C3 (amended): with the range [1.0, 1.0], a row of the table whose
category and organism pass the dropdown filters is included when its raw
energy is the double nearest 1.04 (pandas-rounded to 1.0, the boundary) and
is also included when its raw energy is the double nearest 1.05: the scaled
double product 10.0 times 1.05 is exactly 10.5, rint rounds it half-to-even
to 10, so the row value pandas-rounds to 1.0 as well — only the builtin
endpoint rounding of lines 103-104 sends 1.05 to 1.1. -/
theorem boundary_rounding (df : List Row) (r : Row) (cats orgs : Selection)
    (hmem : r ∈ df)
    (hcat : r.matrixCategory ∈ normalizeSelection cats)
    (horg : r.microorganism ∈ normalizeSelection orgs) :
    (r.energy = some d104 → r ∈ filtered_df 1 1 cats orgs df) ∧
      (r.energy = some d105 → r ∈ filtered_df 1 1 cats orgs df) := by
  constructor
  · intro he
    rw [mem_filtered_df 1 1 cats orgs df r _ he]
    refine ⟨hmem, ⟨?_, ?_⟩, hcat, horg⟩ <;>
      simp [builtinRound1_one, pandasRound1_of_d104]
  · intro he
    rw [mem_filtered_df 1 1 cats orgs df r _ he]
    refine ⟨hmem, ⟨?_, ?_⟩, hcat, horg⟩ <;>
      simp [builtinRound1_one, pandasRound1_of_d105]

/-- A concrete row whose raw energy is the double nearest 1.04. -/
def rowB104 : Row :=
  ⟨some d104, some 1, "juice", "doi-f", "NA", "E. coli", "apple juice", "yes"⟩

/-- Witness for the amended C3 at a concrete row, table and control state. -/
theorem boundary_rounding_witness :
    (rowB104.energy = some d104 →
        rowB104 ∈ filtered_df 1 1 (.multi ["juice"]) (.multi ["E. coli"]) [rowB104]) ∧
      (rowB104.energy = some d105 →
        rowB104 ∈ filtered_df 1 1 (.multi ["juice"]) (.multi ["E. coli"]) [rowB104]) :=
  boundary_rounding [rowB104] rowB104 (.multi ["juice"]) (.multi ["E. coli"])
    (by simp) (by simp [rowB104, normalizeSelection]) (by simp [rowB104, normalizeSelection])

/-- Generalized fold step for `uniqueVals`: an element of the accumulator or
of the remaining list ends up in the fold result. -/
theorem mem_uniqueVals_fold (l : List String) (acc : List String) (x : String)
    (hx : x ∈ acc ∨ x ∈ l) :
    x ∈ l.foldl (fun acc y => if acc.contains y then acc else acc ++ [y]) acc := by
  induction l generalizing acc with
  | nil => simpa using hx
  | cons y t ih =>
      rw [List.foldl_cons]
      by_cases hy : acc.contains y
      · rw [if_pos hy]
        rcases hx with hx | hx
        · exact ih acc (Or.inl hx)
        · rcases List.mem_cons.mp hx with rfl | hx
          · exact ih acc (Or.inl (by simpa using hy))
          · exact ih acc (Or.inr hx)
      · rw [if_neg hy]
        rcases hx with hx | hx
        · exact ih _ (Or.inl (List.mem_append_left _ hx))
        · rcases List.mem_cons.mp hx with rfl | hx
          · exact ih _ (Or.inl (List.mem_append_right _ (List.mem_singleton_self x)))
          · exact ih _ (Or.inr hx)

/-- Every element of a list appears in its deduplication. -/
theorem mem_uniqueVals {l : List String} {x : String} (hx : x ∈ l) : x ∈ uniqueVals l :=
  mem_uniqueVals_fold l [] x (Or.inr hx)

/-- The minimum reported by `List.min?` is below every element. -/
theorem min?_le_of_mem {l : List ℚ} {lo e : ℚ} (h : l.min? = some lo) (he : e ∈ l) : lo ≤ e :=
  (List.le_min?_iff (fun _ _ _ => le_min_iff) h).mp le_rfl e he

/-- The maximum reported by `List.max?` is above every element. -/
theorem le_max?_of_mem {l : List ℚ} {hi e : ℚ} (h : l.max? = some hi) (he : e ∈ l) : e ≤ hi :=
  (List.max?_le_iff (fun _ _ _ => max_le_iff) h).mp le_rfl e he

/-- C4 as frozen fails on the code: for the one-row cleaned table whose
energy is the double nearest 1.05, the full bounds are lo = hi = that
energy, yet the filtered set under the full bounds and all observed
categories and organisms is empty, not the whole table: the builtin-rounded
lower endpoint is 1.1 while the pandas-rounded row value is 1.0, so the
minimum row itself is excluded. -/
theorem full_range_round_trip_counterexample :
    (colEnergies [rowE105]).min? = some d105 ∧ (colEnergies [rowE105]).max? = some d105 ∧
      filtered_df d105 d105 (.multi (matrix_category_values [rowE105]))
        (.multi (organism_grouped_values [rowE105])) [rowE105] ≠ [rowE105] := by
  refine ⟨by simp [colEnergies, rowE105, List.min?_cons'],
    by simp [colEnergies, rowE105, List.max?_cons'], ?_⟩
  intro hcontra
  have hmem : rowE105 ∈ filtered_df d105 d105 (.multi (matrix_category_values [rowE105]))
      (.multi (organism_grouped_values [rowE105])) [rowE105] := by
    rw [hcontra]; simp
  rw [mem_filtered_df d105 d105 _ _ [rowE105] rowE105 d105 rfl] at hmem
  obtain ⟨-, ⟨habs, -⟩, -, -⟩ := hmem
  rw [builtinRound1_of_d105, pandasRound1_of_d105] at habs
  norm_num at habs

/-- C4 (amended): filtering with the full energy bounds of the table and
with the dropdown option lists themselves (all observed categories and
organisms) returns the whole table, provided the energy cell of every row is
present (as in the cleaned table), the minimum is nonnegative (energies are
physical doses, nonnegative by the data model), and the endpoint rounding
does not overshoot at either extreme: the builtin-rounded minimum must not
exceed the pandas-rounded minimum and the pandas-rounded maximum must not
exceed the builtin-rounded maximum.  The last two hypotheses are exactly
what the counterexample violates: for a minimum energy at the double
nearest 1.05 the builtin endpoint rounds to 1.1 while the row value
pandas-rounds to 1.0, and the round trip fails. -/
theorem full_range_round_trip (df : List Row) (lo hi : ℚ)
    (hall : ∀ r ∈ df, r.energy.isSome)
    (hlo : (colEnergies df).min? = some lo)
    (hhi : (colEnergies df).max? = some hi)
    (hpos : 0 ≤ lo)
    (hlo2 : builtinRound1 lo ≤ pandasRound1 lo)
    (hhi2 : pandasRound1 hi ≤ builtinRound1 hi) :
    filtered_df lo hi (.multi (matrix_category_values df))
      (.multi (organism_grouped_values df)) df = df := by
  rw [filtered_df, List.filter_eq_self]
  intro r hr
  obtain ⟨e, he⟩ := Option.isSome_iff_exists.mp (hall r hr)
  have hmm : e ∈ colEnergies df := List.mem_filterMap.mpr ⟨r, hr, he⟩
  have hle : lo ≤ e := min?_le_of_mem hlo hmm
  have h1 : builtinRound1 lo ≤ pandasRound1 e :=
    le_trans hlo2 (pandasRound1_mono_nonneg hpos hle)
  have h2 : pandasRound1 e ≤ builtinRound1 hi :=
    le_trans (pandasRound1_mono_nonneg (le_trans hpos hle) (le_max?_of_mem hhi hmm)) hhi2
  have hcat : r.matrixCategory ∈ matrix_category_values df :=
    mem_uniqueVals (List.mem_map_of_mem _ hr)
  have horg : r.microorganism ∈ organism_grouped_values df :=
    mem_uniqueVals (List.mem_map_of_mem _ hr)
  simp [rowMask, energyBetween, he, normalizeSelection, h1, h2, hcat, horg]

/-- A second concrete good row, with a different category, organism and
energy, used in the round-trip witness. -/
def rowGood2 : Row :=
  ⟨some 200, some 4, "milk", "doi-g", "NA", "Salmonella", "whole milk", "yes"⟩

/-- Witness for the amended C4 at a concrete two-row table. -/
theorem full_range_round_trip_witness :
    filtered_df 10 200 (.multi (matrix_category_values [rowGood, rowGood2]))
      (.multi (organism_grouped_values [rowGood, rowGood2])) [rowGood, rowGood2]
      = [rowGood, rowGood2] :=
  full_range_round_trip [rowGood, rowGood2] 10 200
    (by simp [rowGood, rowGood2])
    (by norm_num [colEnergies, rowGood, rowGood2, List.filterMap_cons, List.min?_cons', min_def])
    (by norm_num [colEnergies, rowGood, rowGood2, List.filterMap_cons, List.max?_cons', max_def])
    (by norm_num)
    (by simp [builtinRound1_ten, pandasRound1_ten])
    (by simp [pandasRound1_twoHundred, builtinRound1_twoHundred])

/-- Expansion of the residual sum of squares of a line through the origin in
terms of the three moment sums. -/
theorem sse_expand (l : List (ℚ × ℚ)) (m : ℚ) :
    sseLine l m 0 = syy l - 2 * m * sxy l + m ^ 2 * sxx l := by
  induction l with
  | nil => simp [sseLine, syy, sxy, sxx]
  | cons p t ih =>
      simp only [sseLine, syy, sxy, sxx, List.map_cons, List.sum_cons] at ih ⊢
      linear_combination ih

/-- The sum of squared x values is nonnegative. -/
theorem sxx_nonneg (l : List (ℚ × ℚ)) : 0 ≤ sxx l := by
  refine List.sum_nonneg ?_
  intro x hx
  obtain ⟨p, -, rfl⟩ := List.mem_map.mp hx
  exact mul_self_nonneg p.1

/-- The no-constant least-squares slope minimizes the residual sum of
squares among all lines through the origin. -/
theorem olsSlope_minimizes (l : List (ℚ × ℚ)) (hx : sxx l ≠ 0) (m : ℚ) :
    sseLine l (olsSlope l) 0 ≤ sseLine l m 0 := by
  have h0 : 0 < sxx l := lt_of_le_of_ne (sxx_nonneg l) (Ne.symm hx)
  have hdiff : sseLine l m 0 - sseLine l (olsSlope l) 0 = sxx l * (m - olsSlope l) ^ 2 := by
    rw [sse_expand, sse_expand, olsSlope]
    field_simp
    ring
  nlinarith [mul_nonneg h0.le (sq_nonneg (m - olsSlope l))]

/-- C5 (amended): the trend line of the figure is a single overall
least-squares fit of reduction on energy over the entire filtered subset
(not per group), but it carries no free intercept: `add_constant=False`
constrains the line through the origin, and the rendered slope minimizes the
residual sum of squares among all lines through the origin. -/
theorem trendline_overall_no_intercept (lo hi : ℚ) (cats orgs : Selection) (df : List Row)
    (hne : filtered_df lo hi cats orgs df ≠ [])
    (hx : sxx (xyPairs (filtered_df lo hi cats orgs df)) ≠ 0) :
    (update_bar_chart (lo, hi) cats orgs df).trendSlope
        = some (olsSlope (xyPairs (filtered_df lo hi cats orgs df))) ∧
      ∀ m, sseLine (xyPairs (filtered_df lo hi cats orgs df))
            (olsSlope (xyPairs (filtered_df lo hi cats orgs df))) 0
          ≤ sseLine (xyPairs (filtered_df lo hi cats orgs df)) m 0 := by
  refine ⟨?_, olsSlope_minimizes _ hx⟩
  simp only [update_bar_chart]
  rw [if_neg (by simpa [List.isEmpty_iff] using hne)]

/-- A concrete filtered point (energy 1, reduction 2). -/
def rowTrendA : Row :=
  ⟨some 1, some 2, "c", "doi-h", "NA", "o", "m", "yes"⟩

/-- A concrete filtered point (energy 2, reduction 2). -/
def rowTrendB : Row :=
  ⟨some 2, some 2, "c", "doi-i", "NA", "o", "m", "yes"⟩

/-- C5 as frozen fails on the code: on the two filtered points (1, 2) and
(2, 2) the rendered trend line is y = (6/5)·x, the no-constant fit, whose
residual sum of squares is strictly larger than that of the affine line
y = 0·x + 2; so the rendered line is not an ordinary-least-squares fit with
an unconstrained intercept. -/
theorem trendline_intercept_counterexample :
    (update_bar_chart (0, 300) (.multi ["c"]) (.multi ["o"]) [rowTrendA, rowTrendB]).trendSlope
        = some (6/5) ∧
      sseLine (xyPairs ((update_bar_chart (0, 300) (.multi ["c"]) (.multi ["o"])
            [rowTrendA, rowTrendB]).points)) 0 2
        < sseLine (xyPairs ((update_bar_chart (0, 300) (.multi ["c"]) (.multi ["o"])
            [rowTrendA, rowTrendB]).points)) (6/5) 0 := by
  have hf : filtered_df 0 300 (.multi ["c"]) (.multi ["o"]) [rowTrendA, rowTrendB]
      = [rowTrendA, rowTrendB] := by
    norm_num [filtered_df, rowMask, energyBetween, normalizeSelection, pandasRound1_one,
      pandasRound1_two, builtinRound1_zero, builtinRound1_threeHundred,
      rowTrendA, rowTrendB, List.filter_cons]
  constructor
  · simp only [update_bar_chart, hf]
    norm_num [xyPairs, olsSlope, sxx, sxy, rowTrendA, rowTrendB]
  · simp only [update_bar_chart, hf]
    norm_num [xyPairs, sseLine, rowTrendA, rowTrendB]

/-- Witness for the amended C5 at a concrete control state and table. -/
theorem trendline_overall_no_intercept_witness :
    (update_bar_chart (0, 300) (.multi ["c"]) (.multi ["o"]) [rowTrendA, rowTrendB]).trendSlope
        = some (olsSlope (xyPairs
            (filtered_df 0 300 (.multi ["c"]) (.multi ["o"]) [rowTrendA, rowTrendB]))) ∧
      ∀ m, sseLine (xyPairs (filtered_df 0 300 (.multi ["c"]) (.multi ["o"])
              [rowTrendA, rowTrendB]))
            (olsSlope (xyPairs (filtered_df 0 300 (.multi ["c"]) (.multi ["o"])
              [rowTrendA, rowTrendB]))) 0
          ≤ sseLine (xyPairs (filtered_df 0 300 (.multi ["c"]) (.multi ["o"])
              [rowTrendA, rowTrendB])) m 0 :=
  trendline_overall_no_intercept 0 300 (.multi ["c"]) (.multi ["o"]) [rowTrendA, rowTrendB]
    (by
      norm_num [filtered_df, rowMask, energyBetween, normalizeSelection, pandasRound1_one,
      pandasRound1_two, builtinRound1_zero, builtinRound1_threeHundred,
        rowTrendA, rowTrendB, List.filter_cons]
      exact List.cons_ne_nil _ _)
    (by norm_num [filtered_df, rowMask, energyBetween, normalizeSelection, pandasRound1_one,
      pandasRound1_two, builtinRound1_zero, builtinRound1_threeHundred,
      rowTrendA, rowTrendB, List.filter_cons, xyPairs, sxx])

/-- C6: whenever the filtered set is empty, the callback still returns a
figure normally, with zero points and no trend line. -/
theorem empty_filtered_chart (lo hi : ℚ) (cats orgs : Selection) (df : List Row)
    (h : filtered_df lo hi cats orgs df = []) :
    update_bar_chart (lo, hi) cats orgs df = ⟨[], none⟩ := by
  simp [update_bar_chart, h]

/-- Witness for C6 at the empty category selection over a concrete table. -/
theorem empty_filtered_chart_witness :
    update_bar_chart (0, 300) (.multi []) (.multi ["E. coli"]) [rowGood] = ⟨[], none⟩ :=
  empty_filtered_chart 0 300 (.multi []) (.multi ["E. coli"]) [rowGood]
    (by simp [filtered_df, rowMask, normalizeSelection, List.filter_cons])

/-- C7 fails on the code: a source table all of whose rows are dropped by
the cleaning filters raises no EmptyDatasetError anywhere; the NaN slider
bounds are computed and handed to the RangeSlider without complaint, and
startup then aborts with an uncaught IndexError when line 68 takes the first
element of the empty category options array (the `none` outcome of the
layout construction). -/
theorem empty_table_nan_bounds_counterexample :
    startupSliderConfig [rowFlagNo] = (none, none) ∧ startupLayout [rowFlagNo] = none := by
  have hclean : cleanTable [rowFlagNo] = [] := by
    norm_num [cleanTable, rowFlagNo, energyNotNA, energyLe300, reductionNotNA, flagYes,
      List.filter_cons]
    decide
  constructor
  · rw [startupSliderConfig, hclean]; rfl
  · rw [startupLayout, hclean]; rfl

/-- C7 (amended): if the cleaned table has zero rows, startup does not fail
fast with an EmptyDatasetError — no such error exists in the program.  The
undefined (NaN) slider bounds are computed on lines 45-46 and propagated
into the range control of lines 56-61, and startup then aborts anyway with
an uncaught IndexError at line 68, where the default value of the category
dropdown indexes the empty options array. -/
theorem empty_table_nan_bounds (raw : List Row) (h : cleanTable raw = []) :
    startupSliderConfig raw = (none, none) ∧ startupLayout raw = none := by
  rw [startupSliderConfig, startupLayout, h]
  exact ⟨rfl, rfl⟩

/-- Witness for the amended C7 at the empty source table. -/
theorem empty_table_nan_bounds_witness :
    startupSliderConfig [] = (none, none) ∧ startupLayout [] = none :=
  empty_table_nan_bounds [] rfl

/-- C8: the callback is deterministic: two invocations with equal control
values over the same table return equal figures — same point set and same
trend-line parameters. -/
theorem callback_deterministic (r₁ r₂ : ℚ × ℚ) (c₁ c₂ o₁ o₂ : Selection) (t₁ t₂ : List Row)
    (hr : r₁ = r₂) (hc : c₁ = c₂) (ho : o₁ = o₂) (ht : t₁ = t₂) :
    update_bar_chart r₁ c₁ o₁ t₁ = update_bar_chart r₂ c₂ o₂ t₂ := by
  rw [hr, hc, ho, ht]

/-- Witness for C8 at concrete control values and a concrete table. -/
theorem callback_deterministic_witness :
    update_bar_chart (0, 300) (.multi ["juice"]) (.multi ["E. coli"]) [rowGood]
      = update_bar_chart (0, 300) (.multi ["juice"]) (.multi ["E. coli"]) [rowGood] :=
  callback_deterministic (0, 300) (0, 300) (.multi ["juice"]) (.multi ["juice"])
    (.multi ["E. coli"]) (.multi ["E. coli"]) [rowGood] [rowGood] rfl rfl rfl rfl

/-- C9: the callback has no side effect outside its return value: the table
after an invocation (threaded through the state-passing form of the
callback) is exactly the table before it, every row and field unchanged. -/
theorem callback_no_side_effects (energyRange : ℚ × ℚ) (cats orgs : Selection) (df : List Row) :
    (update_bar_chart_st energyRange cats orgs df).2 = df :=
  rfl

/-- C10: for a fixed energy range, enlarging either multi-selection only
enlarges the filtered set: with category selections A ⊆ A' and organism
selections B ⊆ B', every row kept under (A, B) is kept under (A', B'). -/
theorem filtered_df_mono (lo hi : ℚ) (A A' B B' : List String) (df : List Row)
    (hA : A ⊆ A') (hB : B ⊆ B') :
    filtered_df lo hi (.multi A) (.multi B) df
      ⊆ filtered_df lo hi (.multi A') (.multi B') df := by
  intro r hr
  rw [filtered_df, List.mem_filter] at hr ⊢
  refine ⟨hr.1, ?_⟩
  have hm := hr.2
  simp only [rowMask, normalizeSelection, Bool.and_eq_true] at hm ⊢
  simp only [List.contains_eq_any_beq, List.any_eq_true, beq_iff_eq] at hm ⊢
  obtain ⟨⟨h1, x, hx, heqx⟩, y, hy, heqy⟩ := hm
  exact ⟨⟨h1, x, hA hx, heqx⟩, y, hB hy, heqy⟩

/-- Witness for C10 at concrete nested selections over a concrete table. -/
theorem filtered_df_mono_witness :
    filtered_df 0 300 (.multi ["juice"]) (.multi ["E. coli"]) [rowGood]
      ⊆ filtered_df 0 300 (.multi ["juice", "milk"]) (.multi ["E. coli", "Salmonella"]) [rowGood] :=
  filtered_df_mono 0 300 ["juice"] ["juice", "milk"] ["E. coli"] ["E. coli", "Salmonella"]
    [rowGood] (by simp) (by simp)

end PEF
